import Mathlib

/-!
Shallow embedding of the vector-retrieval and perspective-synthesis core of
the `kindling` repository (`backend/src/create_embeddings.py` and
`backend/src/perspective.py`), together with proofs settling the frozen
claims about it.

Modelling conventions:
* Python strings are Lean `String`s; where character counts and slicing
  matter (context packing) blocks are modelled as `List Char`, which is
  exactly Python's view of a string as a sequence of code points.
* Embedding vectors are `List Int` and distances are exact integers: the
  squared-Euclidean distance of integer vectors.  The claims under study are
  about counts, ordering, alignment and error flow, none of which depend on
  float rounding.
* The OpenAI embeddings API is an opaque collaborator; it is passed in as a
  function `provider : String → List Int` (the code's
  `self.client.embeddings.create`, one vector per input text).  The chat
  completion endpoint is likewise passed in as
  `llm : String → String → Except String String` (system message, user
  message; `Except.error` models a raised exception).
* FAISS `IndexFlatL2` is modelled exactly at the interface the code uses:
  exact squared-L2 k-nearest search, ascending, and — as the real library
  does — when `k` exceeds `ntotal` the missing slots are filled with label
  `-1` and the float-max filler distance.
* Mutation of `self` is modelled by state passing: operations that can leave
  the object changed before an exception return the store alongside an
  optional error.  `debug` printing and environment/API-key handling are
  side effects with no bearing on any claim and are omitted.
-/

/-- Errors raised by the Python code, by exception class and message. -/
inductive PyError where
  | valueError (msg : String)
  | fileNotFoundError (msg : String)
  deriving DecidableEq, Repr

/-- Metadata record stored per embedded text (`summary`, `category`, `text`
keys of the metadata dictionaries). -/
structure Metadata where
  summary : String
  category : String
  text : String
  deriving DecidableEq, Repr

/-- State of `EmbeddingStore`: configured model name and dimension, the FAISS
index contents (vectors in insertion order) and the metadata list. -/
structure EmbeddingStore where
  embedding_model : String
  dimension : Nat
  vectors : List (List Int)
  metadata : List Metadata
  deriving DecidableEq, Repr

/-- A freshly constructed `EmbeddingStore` (empty index, empty metadata). -/
def emptyStore (embedding_model : String) (dimension : Nat) : EmbeddingStore :=
  ⟨embedding_model, dimension, [], []⟩

/-- The message of the `ValueError` raised on a texts/metadata length
disagreement in `add_texts`. -/
def shapeMismatchMsg : String :=
  "Number of texts must match number of metadata entries"

/-- The message of the `ValueError` raised by `create_embeddings` when the
provider's vector width disagrees with the configured dimension. -/
def dimensionMismatchMsg (expected got : Nat) : String :=
  "Embedding dimension mismatch: expected " ++ toString expected ++
    ", got " ++ toString got ++ ". Update dimension parameter."

/-- Embedding of `EmbeddingStore.create_embeddings`: returns one vector per
text via the provider, after the `embeddings.shape[1] != self.dimension`
check (the width of the rows of the rectangular batch, i.e. of its first
row). -/
def EmbeddingStore.create_embeddings (store : EmbeddingStore)
    (provider : String → List Int) (texts : List String) :
    Except PyError (List (List Int)) :=
  if texts.isEmpty then .ok []
  else
    let embeddings := texts.map provider
    let width := (embeddings.headD []).length
    if width ≠ store.dimension then
      .error (.valueError (dimensionMismatchMsg store.dimension width))
    else .ok embeddings

/-- Embedding of `EmbeddingStore.add_texts`.  The store is returned alongside
an optional raised error, so that "store left unmodified" is expressible. -/
def EmbeddingStore.add_texts (store : EmbeddingStore)
    (provider : String → List Int) (texts : List String)
    (metadata_list : List Metadata) : EmbeddingStore × Option PyError :=
  if texts.length ≠ metadata_list.length then
    (store, some (.valueError shapeMismatchMsg))
  else if texts.isEmpty then (store, none)
  else
    match store.create_embeddings provider texts with
    | .error e => (store, some e)
    | .ok embeddings =>
        ({ store with
            vectors := store.vectors ++ embeddings,
            metadata := store.metadata ++ metadata_list }, none)

/-- Squared Euclidean distance between two vectors (FAISS `IndexFlatL2`
distance semantics, over exact integers). -/
def sqDist (u v : List Int) : Int :=
  ((u.zip v).map (fun p => (p.1 - p.2) ^ 2)).sum

/-- Score every stored vector against a query: the pair
`(squared distance, index)` in insertion order, indices starting at `s`. -/
def scoreVecs (q : List Int) : List (List Int) → Int → List (Int × Int)
  | [], _ => []
  | v :: rest, s => (sqDist q v, s) :: scoreVecs q rest (s + 1)

/-- FAISS fills result slots beyond `ntotal` with the largest finite float32
(and label `-1`); this is that filler value as an exact integer. -/
def faissFillerDist : Int := 340282346638528859811704183484516925440

/-- Comparison used to model FAISS's ascending-distance result order:
by distance, ties broken by insertion index. -/
def pairLe (a b : Int × Int) : Prop :=
  a.1 < b.1 ∨ (a.1 = b.1 ∧ a.2 ≤ b.2)

instance : DecidableRel pairLe := fun a b => by
  unfold pairLe; exact inferInstance

instance : IsTotal (Int × Int) pairLe :=
  ⟨by intro a b; unfold pairLe; omega⟩

instance : IsTrans (Int × Int) pairLe :=
  ⟨by intro a b c; unfold pairLe; omega⟩

instance : IsAntisymm (Int × Int) pairLe := by
  constructor
  intro a b h h'
  unfold pairLe at h h'
  have h2 : a.1 = b.1 ∧ a.2 = b.2 := by omega
  exact Prod.ext h2.1 h2.2

/-- Embedding of `self.index.search(query_embedding, k)` on a flat L2 index:
the `k` nearest `(distance, label)` pairs in ascending order, padded with
`(float32 max, -1)` when fewer than `k` vectors are stored. -/
def faissFlatL2Search (vectors : List (List Int)) (q : List Int) (k : Nat) :
    List (Int × Int) :=
  let sorted := List.insertionSort pairLe (scoreVecs q vectors 0)
  let top := sorted.take k
  top ++ List.replicate (k - top.length) (faissFillerDist, -1)

/-- Python list indexing `l[i]`: negative indices count from the end;
`none` models an `IndexError`. -/
def pyGet {α : Type} (l : List α) (i : Int) : Option α :=
  let j : Int := if i < 0 then (l.length : Int) + i else i
  if h : 0 ≤ j ∧ j.toNat < l.length then some (l.get ⟨j.toNat, h.2⟩)
  else none

/-- One entry of the list returned by `EmbeddingStore.search`: a copy of a
metadata record plus the `distance` and 1-based `rank` keys. -/
structure SearchResult where
  md : Metadata
  distance : Int
  rank : Nat
  deriving DecidableEq, Repr

/-- The result-assembly loop of `EmbeddingStore.search`: for the `i`-th
`(distance, idx)` pair (0-based enumeration), if `idx < len(metadata)` the
record `metadata[idx]` is emitted with rank `i + 1`.  The `none` branch of
`pyGet` is unreachable for FAISS outputs (labels are `-1` or valid
positions); in Python it would be an uncaught `IndexError`. -/
def collectResults (metadata : List Metadata) :
    List (Int × Int) → Nat → List SearchResult
  | [], _ => []
  | (dist, idx) :: rest, i =>
    if idx < (metadata.length : Int) then
      match pyGet metadata idx with
      | some md => ⟨md, dist, i + 1⟩ :: collectResults metadata rest (i + 1)
      | none => collectResults metadata rest (i + 1)
    else collectResults metadata rest (i + 1)

/-- Embedding of `EmbeddingStore.search`: empty-store early return, query
embedding via `create_embeddings` (whose dimension check can raise), FAISS
search, and the metadata-assembly loop. -/
def EmbeddingStore.search (store : EmbeddingStore)
    (provider : String → List Int) (query : String) (k : Nat) :
    Except PyError (List SearchResult) :=
  if store.vectors.length = 0 then .ok []
  else do
    let queryEmbedding ← store.create_embeddings provider [query]
    let q := queryEmbedding.headD []
    let pairs := faissFlatL2Search store.vectors q k
    .ok (collectResults store.metadata pairs 0)

/-- Contents of a persisted FAISS index file: its dimension `d` and its
vectors. -/
structure FaissIndexFile where
  d : Nat
  vectors : List (List Int)
  deriving DecidableEq, Repr

/-- Embedding of `EmbeddingStore.load`.  The two `Option` arguments model
whether the files exist on disk.  Mirrors the statement order of the source:
the index is assigned to `self.index` before the metadata file is checked,
and `self.dimension` is overwritten with the loaded index's dimension
(`self.dimension = self.index.d`); no comparison with the configured
dimension is made. -/
def EmbeddingStore.load (store : EmbeddingStore)
    (index_path metadata_path : String)
    (indexFile : Option FaissIndexFile)
    (metadataFile : Option (List Metadata)) :
    EmbeddingStore × Option PyError :=
  match indexFile with
  | none =>
      (store, some (.fileNotFoundError ("Index file not found: " ++ index_path)))
  | some idx =>
      let store1 := { store with vectors := idx.vectors }
      match metadataFile with
      | none =>
          (store1, some (.fileNotFoundError
            ("Metadata file not found: " ++ metadata_path)))
      | some md =>
          ({ store1 with metadata := md, dimension := idx.d }, none)

/-- One per-source block of the context assembled in
`search_and_generate_perspective` step 2, for the source enumerated at
1-based position `i` (modelled as a character list, Python's view of the
f-string). -/
def sourceBlock (i : Nat) (r : SearchResult) : List Char :=
  ("Source " ++ toString i ++ " (Category: " ++ r.md.category ++ "):\n" ++
   "Summary: " ++ r.md.summary ++ "\n" ++
   "Content: " ++ r.md.text ++ "\n").data

/-- The ellipsis marker appended to a truncated block. -/
def truncMarker : List Char := ('.' :: '.' :: '.' :: '\n' :: [])

/-- The context-packing loop of step 2: blocks are appended in enumeration
order while the running `total` stays within `max_context_length`; the first
overflowing block is cut to `max_context_length - total - 4` characters plus
the ellipsis marker when that is positive, and the loop breaks. -/
def packLoop (max_context_length : Int) :
    List SearchResult → Nat → Int → List (List Char)
  | [], _, _ => []
  | r :: rest, i, total =>
    let source_text := sourceBlock i r
    if total + (source_text.length : Int) > max_context_length then
      let remaining := max_context_length - total - 4
      if remaining > 0 then [source_text.take remaining.toNat ++ truncMarker]
      else []
    else source_text :: packLoop max_context_length rest (i + 1)
          (total + source_text.length)

/-- Python's `"\n".join`. -/
def joinNl : List (List Char) → List Char
  | [] => []
  | [s] => s
  | s :: rest => s ++ '\n' :: joinNl rest

/-- The context string assembled by step 2 of
`search_and_generate_perspective`. -/
def buildContext (results : List SearchResult) (max_context_length : Int) :
    List Char :=
  joinNl (packLoop max_context_length results 1 0)

/-- The fixed user prompt of step 3, around the packed context and the
query. -/
def buildPrompt (context : List Char) (query : String) : String :=
  "Based on the following context from various sources, provide a thoughtful perspective on the user's question. \n\n" ++
  "The context includes information from different categories:\n" ++
  "- \"industry\": Technical/industry insights and trends\n" ++
  "- \"company\": Information about companies, products, or services\n" ++
  "- \"world\": General world topics and non-technical views\n\n" ++
  "Your task is to synthesize these perspectives into a coherent, insightful answer that addresses the user's question.\n\n" ++
  "Context:\n" ++ String.mk context ++ "\n\n" ++
  "User's question: " ++ query ++ "\n\n" ++
  "Instructions:\n" ++
  "1. Synthesize the information from the context to form a comprehensive perspective\n" ++
  "2. Reference specific insights from the sources where relevant\n" ++
  "3. If the context doesn't fully answer the question, acknowledge limitations\n" ++
  "4. Provide a clear, well-structured response (2-4 paragraphs)\n" ++
  "5. Focus on insights and understanding rather than just summarizing\n\n" ++
  "Provide your perspective:"

/-- The system message, optionally prefixed by a persona prompt (a falsy —
absent or empty — persona is not prepended, per Python truthiness). -/
def mkSystemMessage (persona_prompt : Option String) : String :=
  let base := "You are a thoughtful analyst who synthesizes information from multiple sources to provide insightful perspectives on questions about the world, industry, and technology."
  match persona_prompt with
  | some p => if p ≠ "" then p ++ " " ++ base else base
  | none => base

/-- Python's `str.strip()`: drop leading and trailing whitespace. -/
def pyStrip (s : String) : String :=
  String.mk (((s.data.dropWhile Char.isWhitespace).reverse.dropWhile
    Char.isWhitespace).reverse)

/-- Rounding of a rational to four decimal places, modelling Python's
`round(x, 4)` (the decimal tie-breaking mode of float rounding is immaterial
to every claim). -/
def pyRound4 (q : ℚ) : ℚ := (round (q * 10000) : ℤ) / 10000

/-- The displayed relevance score: `round(1 / (1 + distance), 4)` when the
distance is positive, else `1.0`. -/
def relevanceScore (distance : Int) : ℚ :=
  if distance > 0 then pyRound4 (1 / (1 + (distance : ℚ))) else 1

/-- One element of a Perspective's `sources` list; `none` fields model dict
keys that are absent (the degraded path emits bare category/summary
pairs). -/
structure Source where
  rank : Option Nat
  category : String
  summary : String
  relevance_score : Option ℚ
  deriving DecidableEq, Repr

/-- The dictionary returned by `search_and_generate_perspective`; `error`
is `none` when the `'error'` key is absent. -/
structure Perspective where
  perspective : String
  sources : List Source
  query : String
  error : Option String
  deriving DecidableEq, Repr

/-- The fixed no-results sentence. -/
def noInfoMsg : String :=
  "No relevant information found in the knowledge base to answer your question."

/-- The fixed apology of the degraded (LLM-failure) path, naming the number
of retrieved sources and the query. -/
def degradedText (numSources : Nat) (query : String) : String :=
  "I encountered an error while generating a perspective. However, I found " ++
    toString numSources ++
    " relevant sources that might help answer your question: \"" ++ query ++ "\""

/-- State of `PerspectiveGenerator`: the LLM model name and the owned
embedding store. -/
structure PerspectiveGenerator where
  llm_model : String
  store : EmbeddingStore
  deriving DecidableEq, Repr

/-- Embedding of `PerspectiveGenerator.search_and_generate_perspective`.
Steps: retrieval (whose dimension check can raise, propagated), the
empty-retrieval early return, context packing, the LLM call, and on LLM
success the sources with rank and relevance score — on LLM failure the
degraded Perspective with bare category/summary pairs and the `error`
field. -/
def PerspectiveGenerator.search_and_generate_perspective
    (g : PerspectiveGenerator) (provider : String → List Int)
    (llm : String → String → Except String String)
    (query : String) (top_k : Nat) (max_context_length : Int)
    (persona_prompt : Option String) : Except PyError Perspective :=
  match g.store.search provider query top_k with
  | .error e => .error e
  | .ok results =>
    if results.isEmpty then .ok ⟨noInfoMsg, [], query, none⟩
    else
      let context := buildContext results max_context_length
      let prompt := buildPrompt context query
      let system_message := mkSystemMessage persona_prompt
      match llm system_message prompt with
      | .ok content =>
          .ok ⟨pyStrip content,
               results.map (fun r =>
                 ⟨some r.rank, r.md.category, r.md.summary,
                  some (relevanceScore r.distance)⟩),
               query, none⟩
      | .error e =>
          .ok ⟨degradedText results.length query,
               results.map (fun r => ⟨none, r.md.category, r.md.summary, none⟩),
               query, some e⟩

/-- A run of 70 `=` characters. -/
def sep70 : String := String.mk (List.replicate 70 '=')

/-- A run of 70 `-` characters. -/
def dash70 : String := String.mk (List.replicate 70 '-')

/-- Display of one source in `format_output`: `source['rank']` is read
unconditionally (a missing key is a `KeyError`), `relevance_score` only
behind an `in` guard. -/
def formatSourceLines (s : Source) : Except String (List String) :=
  match s.rank with
  | none => .error "KeyError: rank"
  | some r =>
      .ok (["\n[" ++ toString r ++ "] Category: " ++ s.category] ++
           (match s.relevance_score with
            | some v => ["    Relevance: " ++ toString v]
            | none => []) ++
           ["    Summary: " ++ s.summary])

/-- Sequenced display of all sources; the first missing `rank` key aborts
with its `KeyError`. -/
def formatSourcesList : List Source → Except String (List String)
  | [] => .ok []
  | s :: rest => do
    let a ← formatSourceLines s
    let b ← formatSourcesList rest
    .ok (a ++ b)

/-- Embedding of `PerspectiveGenerator.format_output`; `Except.error` models
an uncaught exception escaping the method. -/
def PerspectiveGenerator.format_output (result : Perspective) :
    Except String String := do
  let header := [sep70, "QUERY: " ++ result.query, sep70, "\nPERSPECTIVE:",
                 dash70, result.perspective, "\n" ++ dash70]
  let body ←
    if result.sources.isEmpty then pure []
    else do
      let lines ← formatSourcesList result.sources
      pure (["\nSOURCES (" ++ toString result.sources.length ++ "):", dash70]
              ++ lines)
  .ok (String.mk (joinNl ((header ++ body ++ ["\n" ++ sep70]).map String.data)))

/-- A provider used for concrete instances: every text embeds to the origin
of the plane. -/
def demoProvider2 (_ : String) : List Int := [0, 0]

/-- A provider used for concrete instances: every text embeds to `[0]`. -/
def demoProvider1 (_ : String) : List Int := [0]

/-- A concrete metadata record. -/
def demoMd : Metadata := ⟨"a summary", "world", "a text"⟩

/-- A store of dimension 2 holding exactly one vector. -/
def demoStore1 : EmbeddingStore :=
  ⟨"text-embedding-3-small", 2, [[0, 0]], [demoMd]⟩

/-- A store of dimension 1 holding three vectors at distances 0, 1 and 4
from the origin. -/
def demoStore3 : EmbeddingStore :=
  ⟨"text-embedding-3-small", 1, [[0], [1], [2]],
   [⟨"sA", "industry", "tA"⟩, ⟨"sB", "company", "tB"⟩, ⟨"sC", "world", "tC"⟩]⟩

/-- A metadata record whose fields are all empty, giving the 43-character
minimal source block. -/
def blankMd : Metadata := ⟨"", "", ""⟩

/-- Two retrieval results with blank metadata: each source block is exactly
43 characters long. -/
def blankResults2 : List SearchResult :=
  [⟨blankMd, 0, 1⟩, ⟨blankMd, 0, 2⟩]

/-- A generator over the one-vector store. -/
def demoGen1 : PerspectiveGenerator := ⟨"gpt-4o-mini", demoStore1⟩

/-- An LLM stub that always succeeds with a fixed completion. -/
def llmOk (_ _ : String) : Except String String := .ok "ANSWER"

/-- An LLM stub that always raises. -/
def llmFail (_ _ : String) : Except String String := .error "boom"

instance {ε α : Type} [DecidableEq ε] [DecidableEq α] : DecidableEq (Except ε α) := fun a b =>
  match a, b with
  | .ok x, .ok y =>
      if h : x = y then isTrue (by rw [h])
      else isFalse (by intro hh; injection hh; exact h ‹_›)
  | .ok _, .error _ => isFalse (by intro hh; cases hh)
  | .error _, .ok _ => isFalse (by intro hh; cases hh)
  | .error x, .error y =>
      if h : x = y then isTrue (by rw [h])
      else isFalse (by intro hh; injection hh; exact h ‹_›)

/-- Run a sequence of `add_texts` calls on a store, each call either
succeeding or failing (a failing call leaves the store as it was). -/
def runAdds (provider : String → List Int) (store : EmbeddingStore)
    (calls : List (List String × List Metadata)) : EmbeddingStore :=
  calls.foldl (fun s c => (s.add_texts provider c.1 c.2).1) store

/-- Whether one `add_texts` call succeeds against a store of dimension
`dim`: lengths agree, and (for a non-empty batch) the provider's vector
width matches the configured dimension. -/
def addOk (dim : Nat) (provider : String → List Int)
    (c : List String × List Metadata) : Bool :=
  c.1.length == c.2.length &&
    (c.1.isEmpty || (provider (c.1.headD "")).length == dim)

/-- The (text, metadata) pairs actually accepted by a call sequence: the
per-call pairing of texts with their metadata, restricted to the calls that
succeed. -/
def suppliedPairs (dim : Nat) (provider : String → List Int)
    (calls : List (List String × List Metadata)) :
    List (String × Metadata) :=
  (calls.filter (addOk dim provider)).flatMap (fun c => c.1.zip c.2)

/-- Total character count of a list of blocks. -/
def sumLens (l : List (List Char)) : Nat := (l.map List.length).sum

/-- The untruncated per-source blocks of a result list, enumerated from
`i`. -/
def fullBlocksFrom : List SearchResult → Nat → List (List Char)
  | [], _ => []
  | r :: rest, i => sourceBlock i r :: fullBlocksFrom rest (i + 1)

/-- C1 (code bug): on a store holding exactly one vector, `search` with
`k = 2` returns two results, the second a duplicate of the (only) stored
fragment's metadata carrying FAISS's filler distance and rank 2 — not the
stored count.  FAISS labels the missing neighbor `-1`, the guard
`idx < len(self.metadata)` passes for `-1`, and Python's negative indexing
makes `self.metadata[-1]` the last stored record. -/
theorem search_k_saturation_bug :
    EmbeddingStore.search demoStore1 demoProvider2 "any query" 2 =
      .ok [⟨demoMd, 0, 1⟩, ⟨demoMd, faissFillerDist, 2⟩] ∧
    demoStore1.vectors.length = 1 := by decide

/-- C2 (counterexample): two blank-metadata results give two 43-character
blocks; with `max_context_chars = 86` both are packed, and the `"\n"`
separator added by `join` pushes the assembled context to 87 characters,
exceeding the bound. -/
theorem context_budget_counterexample :
    86 < (buildContext blankResults2 86).length := by decide

/-- C3 (counterexample): the empty query is not rejected.  On a one-vector
store, `search_and_generate_perspective` with `query = ""` embeds the query,
retrieves the stored fragment and returns a normal Perspective — no
`InvalidQuery` (or any other) error is raised before retrieval. -/
theorem no_invalid_query_counterexample :
    PerspectiveGenerator.search_and_generate_perspective demoGen1
        demoProvider2 llmOk "" 1 2000 none =
      .ok ⟨"ANSWER", [⟨some 1, "world", "a summary", some 1⟩], "", none⟩ := by
  decide

/-- C4 (counterexample): loading an index file of dimension 3 into a store
configured with dimension 2 raises no error at all and silently adopts the
loaded dimension, contradicting the claim that `load` fails with a
dimension-mismatch error. -/
theorem load_dimension_mismatch_counterexample :
    (demoStore1.load "emb.index" "emb.json" (some ⟨3, [[1, 2, 3]]⟩)
        (some [demoMd])).2 = none ∧
    (demoStore1.load "emb.index" "emb.json" (some ⟨3, [[1, 2, 3]]⟩)
        (some [demoMd])).1.dimension = 3 ∧
    demoStore1.dimension = 2 := by decide

/-- C4 (amended): whenever both persisted files are present, `load` succeeds
unconditionally — it installs the loaded vectors and metadata and adopts the
loaded index's dimension (`self.dimension = self.index.d`), silently
replacing the configured dimension instead of failing on a mismatch. -/
theorem load_adopts_loaded_dimension (store : EmbeddingStore)
    (index_path metadata_path : String) (f : FaissIndexFile)
    (md : List Metadata) :
    store.load index_path metadata_path (some f) (some md) =
      (⟨store.embedding_model, f.d, f.vectors, md⟩, none) := by
  cases store; rfl

/-- C5: `add_texts` is all-or-nothing.  A texts/metadata length disagreement
raises the shape-mismatch `ValueError` with the store untouched; a
provider width that disagrees with the configured dimension raises the
dimension-mismatch `ValueError` with the store untouched (both checks
happen before any mutation, so the returned store is exactly the input
store in either failure case). -/
theorem add_texts_all_or_nothing (store : EmbeddingStore)
    (provider : String → List Int) (texts : List String)
    (metadata_list : List Metadata) :
    (texts.length ≠ metadata_list.length →
      store.add_texts provider texts metadata_list =
        (store, some (.valueError shapeMismatchMsg))) ∧
    (texts.length = metadata_list.length → ¬ texts.isEmpty →
      ((texts.map provider).headD []).length ≠ store.dimension →
      store.add_texts provider texts metadata_list =
        (store, some (.valueError (dimensionMismatchMsg store.dimension
          ((texts.map provider).headD []).length)))) := by
  constructor
  · intro h
    unfold EmbeddingStore.add_texts
    rw [if_pos h]
  · intro h hne hw
    unfold EmbeddingStore.add_texts EmbeddingStore.create_embeddings
    rw [if_neg (not_not_intro h), if_neg hne, if_neg hne, if_pos hw]

/-- Witness for C5 at concrete inputs: one call with mismatched lengths, one
call whose provider returns width-1 vectors against a dimension-2 store. -/
theorem add_texts_all_or_nothing_witness :
    demoStore1.add_texts demoProvider2 ["t"] [] =
        (demoStore1, some (.valueError shapeMismatchMsg)) ∧
    demoStore1.add_texts demoProvider1 ["t"] [demoMd] =
        (demoStore1, some (.valueError (dimensionMismatchMsg 2 1))) :=
  ⟨(add_texts_all_or_nothing demoStore1 demoProvider2 ["t"] []).1 (by decide),
   (add_texts_all_or_nothing demoStore1 demoProvider1 ["t"] [demoMd]).2
     (by decide) (by decide) (by decide)⟩

/-- C7: on a store holding zero vectors, `search` returns the empty list
(a normal return, not an error) for every provider, query and `k`; and the
engine returns the fixed no-relevant-information Perspective with an empty
source list, for every `llm` — in particular the language model is never
consulted, since the result is the same for all `llm` arguments. -/
theorem empty_store_search_and_answer (em lm : String) (dim : Nat)
    (md : List Metadata) (provider : String → List Int)
    (llm : String → String → Except String String) (query : String)
    (k : Nat) (maxLen : Int) (persona : Option String) :
    EmbeddingStore.search ⟨em, dim, [], md⟩ provider query k = .ok [] ∧
    PerspectiveGenerator.search_and_generate_perspective
        ⟨lm, ⟨em, dim, [], md⟩⟩ provider llm query k maxLen persona =
      .ok ⟨noInfoMsg, [], query, none⟩ := by
  constructor <;> rfl

theorem zip_map_fst_eq {α β γ : Type} (f : α → γ) (ts : List α) (ms : List β)
    (h : ts.length = ms.length) :
    (ts.zip ms).map (fun p => f p.1) = ts.map f := by
  have h1 : (fun (p : α × β) => f p.1) = f ∘ Prod.fst := rfl
  rw [h1, ← List.map_map, List.map_fst_zip _ _ (le_of_eq h)]

theorem add_texts_dimension (s : EmbeddingStore)
    (provider : String → List Int) (ts : List String) (ms : List Metadata) :
    ((s.add_texts provider ts ms).1).dimension = s.dimension := by
  unfold EmbeddingStore.add_texts
  split
  · rfl
  · split
    · rfl
    · split
      · rfl
      · rfl

theorem add_texts_step (s : EmbeddingStore) (provider : String → List Int)
    (ts : List String) (ms : List Metadata) :
    (addOk s.dimension provider (ts, ms) = true →
      (s.add_texts provider ts ms).1 =
        { s with
            vectors := s.vectors ++ ((ts.zip ms).map (fun p => provider p.1)),
            metadata := s.metadata ++ ((ts.zip ms).map Prod.snd) }) ∧
    (addOk s.dimension provider (ts, ms) = false →
      (s.add_texts provider ts ms).1 = s) := by
  constructor
  · intro h
    simp only [addOk, Bool.and_eq_true, beq_iff_eq, Bool.or_eq_true] at h
    obtain ⟨hlen, hrest⟩ := h
    have hfst : (ts.zip ms).map (fun p => provider p.1) = ts.map provider :=
      zip_map_fst_eq provider ts ms hlen
    have hsnd : (ts.zip ms).map Prod.snd = ms :=
      List.map_snd_zip _ _ (le_of_eq hlen.symm)
    unfold EmbeddingStore.add_texts
    rw [if_neg (not_not_intro hlen)]
    by_cases he : ts.isEmpty
    · rw [if_pos he]
      have hts : ts = [] := List.isEmpty_iff.mp he
      subst hts
      have hms : ms = [] := List.eq_nil_of_length_eq_zero hlen.symm
      subst hms
      simp
    · rw [if_neg he]
      unfold EmbeddingStore.create_embeddings
      rw [if_neg he]
      have hw : ((ts.map provider).headD []).length = s.dimension := by
        rcases hrest with h1 | h2
        · exact absurd h1 he
        · cases ts with
          | nil => exact absurd rfl he
          | cons a l => simpa using h2
      rw [if_neg (not_not_intro hw), hfst, hsnd]
  · intro h
    simp only [addOk, Bool.and_eq_false_iff, beq_eq_false_iff_ne,
      Bool.or_eq_false_iff] at h
    unfold EmbeddingStore.add_texts
    rcases h with hlen | ⟨hne, hw⟩
    · rw [if_pos hlen]
    · by_cases hlen2 : ts.length = ms.length
      · rw [if_neg (not_not_intro hlen2), if_neg (by simpa using hne)]
        unfold EmbeddingStore.create_embeddings
        rw [if_neg (by simpa using hne)]
        have hw2 : ((ts.map provider).headD []).length ≠ s.dimension := by
          cases ts with
          | nil => simp at hne
          | cons a l => simpa using hw
        rw [if_pos hw2]
      · rw [if_pos hlen2]

theorem runAdds_spec (provider : String → List Int) (dim : Nat) :
    ∀ (calls : List (List String × List Metadata)) (s : EmbeddingStore),
      s.dimension = dim →
      (runAdds provider s calls).vectors =
          s.vectors ++ (suppliedPairs dim provider calls).map
            (fun p => provider p.1) ∧
      (runAdds provider s calls).metadata =
          s.metadata ++ (suppliedPairs dim provider calls).map Prod.snd ∧
      (runAdds provider s calls).dimension = dim := by
  intro calls
  induction calls with
  | nil =>
      intro s hs
      refine ⟨?_, ?_, hs⟩ <;> simp [runAdds, suppliedPairs]
  | cons c rest ih =>
    intro s hs
    have hrun : runAdds provider s (c :: rest) =
        runAdds provider ((s.add_texts provider c.1 c.2).1) rest := rfl
    by_cases hc : addOk dim provider c = true
    · have hstep := (add_texts_step s provider c.1 c.2).1 (by rw [hs]; exact hc)
      have hdim : ((s.add_texts provider c.1 c.2).1).dimension = dim := by
        rw [add_texts_dimension]; exact hs
      obtain ⟨h1, h2, h3⟩ := ih ((s.add_texts provider c.1 c.2).1) hdim
      have hsup : suppliedPairs dim provider (c :: rest) =
          c.1.zip c.2 ++ suppliedPairs dim provider rest := by
        simp [suppliedPairs, List.filter_cons, hc]
      refine ⟨?_, ?_, by rw [hrun]; exact h3⟩
      · rw [hrun, h1, hstep, hsup]
        simp [List.append_assoc]
      · rw [hrun, h2, hstep, hsup]
        simp [List.append_assoc]
    · have hstep := (add_texts_step s provider c.1 c.2).2
        (by rw [hs]; exact Bool.eq_false_iff.mpr hc)
      obtain ⟨h1, h2, h3⟩ := ih ((s.add_texts provider c.1 c.2).1)
        (by rw [add_texts_dimension]; exact hs)
      have hsup : suppliedPairs dim provider (c :: rest) =
          suppliedPairs dim provider rest := by
        simp [suppliedPairs, List.filter_cons, hc]
      rw [hstep] at h1 h2 h3
      rw [hrun, hstep, hsup]
      exact ⟨h1, h2, h3⟩

/-- C9 (alignment invariant): starting from a fresh store, after any
sequence of `add_texts` calls — each succeeding or failing — the metadata
list and the vector list have equal length, the vector at index `i` is the
provider's embedding of the `i`-th accepted text, and the metadata record at
index `i` is exactly the record supplied together with that text (accepted
calls append texts and metadata pairwise, in order; failing calls change
nothing, and nothing is ever reordered or removed). -/
theorem alignment_invariant (em : String) (dim : Nat)
    (provider : String → List Int)
    (calls : List (List String × List Metadata)) :
    (runAdds provider (emptyStore em dim) calls).metadata.length =
        (runAdds provider (emptyStore em dim) calls).vectors.length ∧
    (runAdds provider (emptyStore em dim) calls).vectors =
        (suppliedPairs dim provider calls).map (fun p => provider p.1) ∧
    (runAdds provider (emptyStore em dim) calls).metadata =
        (suppliedPairs dim provider calls).map Prod.snd := by
  obtain ⟨h1, h2, _⟩ := runAdds_spec provider dim calls (emptyStore em dim) rfl
  rw [show (emptyStore em dim).vectors = [] from rfl, List.nil_append] at h1
  rw [show (emptyStore em dim).metadata = [] from rfl, List.nil_append] at h2
  refine ⟨?_, h1, h2⟩
  rw [h1, h2, List.length_map, List.length_map]

theorem joinNl_length (parts : List (List Char)) :
    (joinNl parts).length = sumLens parts + (parts.length - 1) := by
  induction parts with
  | nil => simp [joinNl, sumLens]
  | cons s rest ih =>
    cases rest with
    | nil => simp [joinNl, sumLens]
    | cons t u =>
      have hj : joinNl (s :: t :: u) = s ++ '\n' :: joinNl (t :: u) := rfl
      rw [hj]
      simp only [List.length_append, List.length_cons, sumLens, List.map_cons,
        List.sum_cons] at ih ⊢
      omega

theorem packLoop_total (maxLen : Int) :
    ∀ (results : List SearchResult) (i : Nat) (total : Int),
      total ≤ maxLen →
      (sumLens (packLoop maxLen results i total) : Int) ≤ maxLen - total := by
  intro results
  induction results with
  | nil =>
      intro i total h
      simp only [packLoop, sumLens, List.map_nil, List.sum_nil, Nat.cast_zero]
      omega
  | cons r rest ih =>
    intro i total h
    unfold packLoop
    by_cases hov : total + ((sourceBlock i r).length : Int) > maxLen
    · rw [if_pos hov]
      by_cases hrem : maxLen - total - 4 > 0
      · rw [if_pos hrem]
        simp only [sumLens, List.map_cons, List.map_nil, List.sum_cons,
          List.sum_nil, List.length_append, List.length_take]
        have hmark : truncMarker.length = 4 := rfl
        rw [hmark]
        push_cast
        omega
      · rw [if_neg hrem]
        simp only [sumLens, List.map_nil, List.sum_nil, Nat.cast_zero]
        omega
    · rw [if_neg hov]
      have hrec := ih (i + 1) (total + (sourceBlock i r).length) (by omega)
      simp only [sumLens, List.map_cons, List.sum_cons] at hrec ⊢
      push_cast at hrec ⊢
      omega

theorem packLoop_structure (maxLen : Int) :
    ∀ (results : List SearchResult) (i : Nat) (total : Int),
      ∃ m, m ≤ results.length ∧
        (packLoop maxLen results i total = (fullBlocksFrom results i).take m ∨
         ∃ rem, packLoop maxLen results i total =
           (fullBlocksFrom results i).take m ++
             [((fullBlocksFrom results i).getD m []).take rem ++ truncMarker]) := by
  intro results
  induction results with
  | nil => intro i total; exact ⟨0, Nat.le_refl 0, Or.inl rfl⟩
  | cons r rest ih =>
    intro i total
    unfold packLoop
    by_cases hov : total + ((sourceBlock i r).length : Int) > maxLen
    · rw [if_pos hov]
      by_cases hrem : maxLen - total - 4 > 0
      · rw [if_pos hrem]
        refine ⟨0, Nat.zero_le _, Or.inr ⟨(maxLen - total - 4).toNat, ?_⟩⟩
        simp [fullBlocksFrom]
      · rw [if_neg hrem]
        exact ⟨0, Nat.zero_le _, Or.inl (by simp)⟩
    · rw [if_neg hov]
      obtain ⟨m, hm, hcase⟩ := ih (i + 1) (total + (sourceBlock i r).length)
      refine ⟨m + 1, by simpa using Nat.succ_le_succ hm, ?_⟩
      rcases hcase with he | ⟨rem, he⟩
      · left
        simp only [fullBlocksFrom, List.take_succ_cons, he]
      · right
        exact ⟨rem, by simp only [fullBlocksFrom, List.take_succ_cons,
          List.getD_cons_succ, he, List.cons_append]⟩

/-- C2 (amended): the packing loop's own character total (what the code
compares against `max_context_length`) never exceeds the bound, blocks are
packed in rank order starting from rank 1 with only the lowest-ranked tail
truncated or dropped — but the assembled context string itself is the
`"\n"`-join of the packed blocks, so its length is that total plus one
separator per additional block, and can therefore exceed
`max_context_chars` by up to the number of packed blocks minus one. -/
theorem context_budget_amended (results : List SearchResult)
    (max_context_length : Int) (h : 0 ≤ max_context_length) :
    ((sumLens (packLoop max_context_length results 1 0) : Int) ≤
        max_context_length) ∧
    (buildContext results max_context_length).length =
        sumLens (packLoop max_context_length results 1 0) +
          ((packLoop max_context_length results 1 0).length - 1) ∧
    (∃ m, m ≤ results.length ∧
      (packLoop max_context_length results 1 0 =
          (fullBlocksFrom results 1).take m ∨
       ∃ rem, packLoop max_context_length results 1 0 =
          (fullBlocksFrom results 1).take m ++
            [((fullBlocksFrom results 1).getD m []).take rem ++
              truncMarker])) := by
  refine ⟨?_, joinNl_length _, packLoop_structure max_context_length results 1 0⟩
  have hb := packLoop_total max_context_length results 1 0 h
  omega

/-- Witness for C2 (amended) at the counterexample input: the packed total
is 86 (within the bound) while the joined context is 87 = 86 + 1 characters,
and the packed blocks are exactly the first two full blocks. -/
theorem context_budget_amended_witness :
    ((sumLens (packLoop 86 blankResults2 1 0) : Int) ≤ 86) ∧
    (buildContext blankResults2 86).length =
        sumLens (packLoop 86 blankResults2 1 0) +
          ((packLoop 86 blankResults2 1 0).length - 1) ∧
    (∃ m, m ≤ blankResults2.length ∧
      (packLoop 86 blankResults2 1 0 = (fullBlocksFrom blankResults2 1).take m ∨
       ∃ rem, packLoop 86 blankResults2 1 0 =
          (fullBlocksFrom blankResults2 1).take m ++
            [((fullBlocksFrom blankResults2 1).getD m []).take rem ++
              truncMarker])) :=
  context_budget_amended blankResults2 86 (by decide)

theorem searchAndGen_llm_fail_eq (g : PerspectiveGenerator)
    (provider : String → List Int)
    (llm : String → String → Except String String) (query : String)
    (top_k : Nat) (max_context_length : Int) (persona_prompt : Option String)
    (results : List SearchResult) (e : String)
    (hres : g.store.search provider query top_k = .ok results)
    (hne : results ≠ [])
    (hllm : llm (mkSystemMessage persona_prompt)
        (buildPrompt (buildContext results max_context_length) query) =
      .error e) :
    g.search_and_generate_perspective provider llm query top_k
        max_context_length persona_prompt =
      .ok ⟨degradedText results.length query,
           results.map (fun r => ⟨none, r.md.category, r.md.summary, none⟩),
           query, some e⟩ := by
  unfold PerspectiveGenerator.search_and_generate_perspective
  rw [hres]
  simp only [List.isEmpty_eq_true, hne, if_false, hllm]

/-- C6: whenever retrieval is non-empty and the language-model call raises,
`search_and_generate_perspective` returns (never raises) a degraded
Perspective whose text is the fixed apology naming the query and the number
of retrieved sources, whose sources are one bare category/summary pair per
retrieved result (no rank, no relevance score), and whose `error` field
carries the underlying failure description. -/
theorem degraded_perspective_on_llm_failure (g : PerspectiveGenerator)
    (provider : String → List Int)
    (llm : String → String → Except String String) (query : String)
    (top_k : Nat) (max_context_length : Int) (persona_prompt : Option String)
    (results : List SearchResult) (e : String)
    (hres : g.store.search provider query top_k = .ok results)
    (hne : results ≠ [])
    (hllm : llm (mkSystemMessage persona_prompt)
        (buildPrompt (buildContext results max_context_length) query) =
      .error e) :
    g.search_and_generate_perspective provider llm query top_k
        max_context_length persona_prompt =
      .ok ⟨degradedText results.length query,
           results.map (fun r => ⟨none, r.md.category, r.md.summary, none⟩),
           query, some e⟩ :=
  searchAndGen_llm_fail_eq g provider llm query top_k max_context_length
    persona_prompt results e hres hne hllm

/-- Witness for C6: a one-vector store, a raising LLM stub, and a concrete
query produce exactly the degraded Perspective. -/
theorem degraded_perspective_witness :
    PerspectiveGenerator.search_and_generate_perspective demoGen1
        demoProvider2 llmFail "what" 1 2000 none =
      .ok ⟨degradedText 1 "what", [⟨none, "world", "a summary", none⟩],
           "what", some "boom"⟩ :=
  degraded_perspective_on_llm_failure demoGen1 demoProvider2 llmFail "what"
    1 2000 none [⟨demoMd, 0, 1⟩] "boom" (by decide) (by decide) rfl

/-- C10: a degraded Perspective produced by an LLM failure with at least one
retrieved source cannot be displayed by `format_output`: the method reads
`source['rank']` unconditionally, the degraded sources carry only category
and summary, so formatting raises a `KeyError`. -/
theorem format_output_keyerror_on_degraded (g : PerspectiveGenerator)
    (provider : String → List Int)
    (llm : String → String → Except String String) (query : String)
    (top_k : Nat) (max_context_length : Int) (persona_prompt : Option String)
    (results : List SearchResult) (e : String)
    (hres : g.store.search provider query top_k = .ok results)
    (hne : results ≠ [])
    (hllm : llm (mkSystemMessage persona_prompt)
        (buildPrompt (buildContext results max_context_length) query) =
      .error e) :
    ∃ p, g.search_and_generate_perspective provider llm query top_k
          max_context_length persona_prompt = .ok p ∧
        p.sources ≠ [] ∧
        PerspectiveGenerator.format_output p = .error "KeyError: rank" := by
  refine ⟨_, searchAndGen_llm_fail_eq g provider llm query top_k
    max_context_length persona_prompt results e hres hne hllm, ?_, ?_⟩
  · simpa using hne
  · cases results with
    | nil => exact absurd rfl hne
    | cons r rest => rfl

/-- Witness for C10: the degraded Perspective of the concrete run cannot be
formatted. -/
theorem format_output_keyerror_witness :
    ∃ p, PerspectiveGenerator.search_and_generate_perspective demoGen1
          demoProvider2 llmFail "what" 1 2000 none = .ok p ∧
        p.sources ≠ [] ∧
        PerspectiveGenerator.format_output p = .error "KeyError: rank" :=
  format_output_keyerror_on_degraded demoGen1 demoProvider2 llmFail "what"
    1 2000 none [⟨demoMd, 0, 1⟩] "boom" (by decide) (by decide) rfl

theorem sqDist_nonneg (u v : List Int) : 0 ≤ sqDist u v := by
  unfold sqDist
  apply List.sum_nonneg
  intro x hx
  obtain ⟨p, _, rfl⟩ := List.mem_map.mp hx
  exact sq_nonneg _

theorem scoreVecs_length (q : List Int) :
    ∀ (vs : List (List Int)) (s : Int),
      (scoreVecs q vs s).length = vs.length := by
  intro vs
  induction vs with
  | nil => intro s; rfl
  | cons v rest ih => intro s; simp [scoreVecs, ih]

theorem scoreVecs_map_fst (q : List Int) :
    ∀ (vs : List (List Int)) (s : Int),
      (scoreVecs q vs s).map Prod.fst = vs.map (sqDist q) := by
  intro vs
  induction vs with
  | nil => intro s; rfl
  | cons v rest ih => intro s; simp [scoreVecs, ih]

theorem scoreVecs_mem (q : List Int) :
    ∀ (vs : List (List Int)) (s : Int) (p : Int × Int),
      p ∈ scoreVecs q vs s →
      ∃ i : Nat, i < vs.length ∧
        p = (sqDist q (vs.getD i []), s + (i : Int)) := by
  intro vs
  induction vs with
  | nil => intro s p hp; cases hp
  | cons v rest ih =>
    intro s p hp
    rcases hp with _ | ⟨_, hmem⟩
    · exact ⟨0, by simp, by simp⟩
    · obtain ⟨i, hi, hp2⟩ := ih (s + 1) p hmem
      refine ⟨i + 1, by simpa using Nat.succ_lt_succ hi, ?_⟩
      rw [hp2]
      simp [List.getD_cons_succ]
      omega

theorem pyGet_ofNat {α : Type} (l : List α) (i : Nat) (h : i < l.length) :
    pyGet l (i : Int) = some (l.get ⟨i, h⟩) := by
  have h0 : ¬((i : Int) < 0) := by omega
  have hc1 : 0 ≤ (i : Int) := by omega
  have hc2 : ((i : Int)).toNat < l.length := by omega
  simp [pyGet, h0, hc1, hc2, h]

theorem pyGet_neg_one {α : Type} (l : List α) (h : l ≠ []) :
    ∃ a, pyGet l (-1) = some a := by
  have hlen : 0 < l.length := List.length_pos.mpr h
  have h0 : (-1 : Int) < 0 := by omega
  have hc1 : 0 ≤ (l.length : Int) + -1 := by omega
  have hc2 : ((l.length : Int) + -1).toNat < l.length := by omega
  simp [pyGet, h0, hc1, hc2]

theorem faissFlatL2Search_length (vs : List (List Int)) (q : List Int)
    (k : Nat) : (faissFlatL2Search vs q k).length = k := by
  unfold faissFlatL2Search
  have hs : (List.insertionSort pairLe (scoreVecs q vs 0)).length =
      vs.length := by
    rw [(List.perm_insertionSort pairLe _).length_eq, scoreVecs_length]
  simp only [List.length_append, List.length_take, List.length_replicate, hs]
  omega

theorem faissFlatL2Search_mem (vs : List (List Int)) (q : List Int) (k : Nat)
    (p : Int × Int) (hp : p ∈ faissFlatL2Search vs q k) :
    (∃ i : Nat, i < vs.length ∧ p = (sqDist q (vs.getD i []), (i : Int))) ∨
      p = (faissFillerDist, -1) := by
  unfold faissFlatL2Search at hp
  rcases List.mem_append.mp hp with h | h
  · left
    have h2 : p ∈ List.insertionSort pairLe (scoreVecs q vs 0) :=
      List.mem_of_mem_take h
    have h3 : p ∈ scoreVecs q vs 0 :=
      (List.perm_insertionSort pairLe _).mem_iff.mp h2
    obtain ⟨i, hi, hp2⟩ := scoreVecs_mem q vs 0 p h3
    exact ⟨i, hi, by simpa using hp2⟩
  · right
    exact List.eq_of_mem_replicate h

theorem faissFlatL2Search_of_le (vs : List (List Int)) (q : List Int)
    (k : Nat) (hk : k ≤ vs.length) :
    faissFlatL2Search vs q k =
      (List.insertionSort pairLe (scoreVecs q vs 0)).take k := by
  have hs : (List.insertionSort pairLe (scoreVecs q vs 0)).length =
      vs.length := by
    rw [(List.perm_insertionSort pairLe _).length_eq, scoreVecs_length]
  have hlen : ((List.insertionSort pairLe (scoreVecs q vs 0)).take k).length
      = k := by
    simp only [List.length_take, hs]
    omega
  have hz : faissFlatL2Search vs q k =
      (List.insertionSort pairLe (scoreVecs q vs 0)).take k ++
        List.replicate
          (k - ((List.insertionSort pairLe (scoreVecs q vs 0)).take k).length)
          (faissFillerDist, -1) := rfl
  rw [hz, hlen]
  simp

theorem search_spec (store : EmbeddingStore) (provider : String → List Int)
    (query : String) (k : Nat) (hn : store.vectors ≠ [])
    (hq : (provider query).length = store.dimension) :
    store.search provider query k =
      .ok (collectResults store.metadata
        (faissFlatL2Search store.vectors (provider query) k) 0) := by
  unfold EmbeddingStore.search
  rw [if_neg (by simpa using hn)]
  have hce : store.create_embeddings provider [query] =
      .ok [provider query] := by
    unfold EmbeddingStore.create_embeddings
    rw [if_neg (by simp)]
    rw [if_neg (not_not_intro (by simpa using hq))]
    rfl
  rw [hce]
  rfl

theorem scoreVecs_pairwise_snd (q : List Int) :
    ∀ (vs : List (List Int)) (s : Int),
      List.Pairwise (fun a b : Int × Int => a.2 < b.2) (scoreVecs q vs s) := by
  intro vs
  induction vs with
  | nil => intro s; exact List.Pairwise.nil
  | cons v rest ih =>
    intro s
    refine List.Pairwise.cons ?_ (ih (s + 1))
    intro y hy
    obtain ⟨i, _, hp⟩ := scoreVecs_mem q rest (s + 1) y hy
    rw [hp]
    show s < s + 1 + (i : Int)
    omega

theorem collectResults_valid_eq (metadata : List Metadata) :
    ∀ (pairs : List (Int × Int)) (i : Nat),
      (∀ p ∈ pairs, 0 ≤ p.2 ∧ p.2 < (metadata.length : Int)) →
      collectResults metadata pairs i =
        (pairs.zip (List.range' (i + 1) pairs.length)).map
          (fun w => ⟨(pyGet metadata w.1.2).getD blankMd, w.1.1, w.2⟩) := by
  intro pairs
  induction pairs with
  | nil => intro i _; rfl
  | cons p rest ih =>
    intro i hv
    obtain ⟨hp1, hp2⟩ := hv p (List.mem_cons_self p rest)
    have hlt : p.2.toNat < metadata.length := by omega
    have hpy : pyGet metadata p.2 = some (metadata.get ⟨p.2.toNat, hlt⟩) := by
      have hbase := pyGet_ofNat metadata p.2.toNat hlt
      rwa [Int.toNat_of_nonneg hp1] at hbase
    obtain ⟨d, idx⟩ := p
    rw [show collectResults metadata ((d, idx) :: rest) i =
        (if idx < (metadata.length : Int) then
          match pyGet metadata idx with
          | some md => ⟨md, d, i + 1⟩ :: collectResults metadata rest (i + 1)
          | none => collectResults metadata rest (i + 1)
        else collectResults metadata rest (i + 1)) from rfl]
    rw [if_pos hp2, hpy]
    rw [ih (i + 1) (fun w hw => hv w (List.mem_cons_of_mem _ hw))]
    rw [List.length_cons, List.range'_succ, List.zip_cons_cons, List.map_cons]
    simp [hpy]

theorem collectResults_valid_facts (metadata : List Metadata)
    (pairs : List (Int × Int))
    (hv : ∀ p ∈ pairs, 0 ≤ p.2 ∧ p.2 < (metadata.length : Int)) :
    (collectResults metadata pairs 0).length = pairs.length ∧
    (collectResults metadata pairs 0).map SearchResult.rank =
        List.range' 1 pairs.length ∧
    (collectResults metadata pairs 0).map SearchResult.distance =
        pairs.map Prod.fst ∧
    (collectResults metadata pairs 0).map SearchResult.md =
        pairs.map (fun p => (pyGet metadata p.2).getD blankMd) := by
  rw [collectResults_valid_eq metadata pairs 0 hv]
  have hlen : (List.range' (0 + 1) pairs.length).length = pairs.length := by
    simp
  have hl : (List.range' (0 + 1) pairs.length).length ≤ pairs.length :=
    le_of_eq hlen
  have hr : pairs.length ≤ (List.range' (0 + 1) pairs.length).length :=
    le_of_eq hlen.symm
  refine ⟨?_, ?_, ?_, ?_⟩
  · simp [List.length_zip]
  · rw [List.map_map]
    have he : (SearchResult.rank ∘ fun w : (Int × Int) × Nat =>
        (⟨(pyGet metadata w.1.2).getD blankMd, w.1.1, w.2⟩ : SearchResult)) =
        Prod.snd := rfl
    rw [he, List.map_snd_zip _ _ hl]
  · rw [List.map_map]
    have he : (SearchResult.distance ∘ fun w : (Int × Int) × Nat =>
        (⟨(pyGet metadata w.1.2).getD blankMd, w.1.1, w.2⟩ : SearchResult)) =
        (Prod.fst ∘ Prod.fst) := rfl
    rw [he, ← List.map_map, List.map_fst_zip _ _ hr]
  · rw [List.map_map]
    have he : (SearchResult.md ∘ fun w : (Int × Int) × Nat =>
        (⟨(pyGet metadata w.1.2).getD blankMd, w.1.1, w.2⟩ : SearchResult)) =
        ((fun p : Int × Int => (pyGet metadata p.2).getD blankMd) ∘
          Prod.fst) := rfl
    rw [he, ← List.map_map, List.map_fst_zip _ _ hr]

/-- C8 (ranking correctness): on a non-empty store with aligned metadata,
for any `k` not exceeding the stored count, `search` computes the squared
Euclidean distance from the query embedding to every stored vector and
returns `k` results whose distance list is exactly the `k` smallest of all
stored distances in ascending order, whose ranks are `1, …, k` in output
order, whose distances are non-negative, and whose (distance, metadata)
pairs come from `k` pairwise-distinct stored positions with the metadata at
each position aligned to its vector. -/
theorem search_ranking_correctness (store : EmbeddingStore)
    (provider : String → List Int) (query : String) (k : Nat)
    (hn : store.vectors ≠ []) (hk : k ≤ store.vectors.length)
    (halign : store.metadata.length = store.vectors.length)
    (hq : (provider query).length = store.dimension) :
    ∃ res, store.search provider query k = .ok res ∧
      res.length = k ∧
      res.map SearchResult.rank = List.range' 1 k ∧
      res.map SearchResult.distance =
        (List.insertionSort (fun a b : Int => a ≤ b)
          (store.vectors.map (sqDist (provider query)))).take k ∧
      (∀ r ∈ res, 0 ≤ r.distance) ∧
      (∃ picks : List Nat, picks.Nodup ∧ picks.length = k ∧
        (∀ j ∈ picks, j < store.vectors.length) ∧
        res.map SearchResult.distance =
          picks.map (fun j =>
            sqDist (provider query) (store.vectors.getD j [])) ∧
        res.map SearchResult.md =
          picks.map (fun j => store.metadata.getD j blankMd)) := by
  have hpairs : faissFlatL2Search store.vectors (provider query) k =
      (List.insertionSort pairLe
        (scoreVecs (provider query) store.vectors 0)).take k :=
    faissFlatL2Search_of_le store.vectors (provider query) k hk
  have hchar : ∀ p ∈ (List.insertionSort pairLe
      (scoreVecs (provider query) store.vectors 0)).take k,
      ∃ i : Nat, i < store.vectors.length ∧
        p = (sqDist (provider query) (store.vectors.getD i []), (i : Int)) := by
    intro p hp
    have h2 := List.mem_of_mem_take hp
    have h3 : p ∈ scoreVecs (provider query) store.vectors 0 :=
      (List.perm_insertionSort pairLe _).mem_iff.mp h2
    obtain ⟨i, hi, hp2⟩ := scoreVecs_mem (provider query) store.vectors 0 p h3
    exact ⟨i, hi, by simpa using hp2⟩
  have hv : ∀ p ∈ (List.insertionSort pairLe
      (scoreVecs (provider query) store.vectors 0)).take k,
      0 ≤ p.2 ∧ p.2 < (store.metadata.length : Int) := by
    intro p hp
    obtain ⟨i, hi, rfl⟩ := hchar p hp
    refine ⟨by simp, ?_⟩
    show (i : Int) < (store.metadata.length : Int)
    rw [halign]
    exact_mod_cast hi
  have hsearch := search_spec store provider query k hn hq
  rw [hpairs] at hsearch
  obtain ⟨hlenf, hranks, hdists, hmds⟩ :=
    collectResults_valid_facts store.metadata
      ((List.insertionSort pairLe
        (scoreVecs (provider query) store.vectors 0)).take k) hv
  have hlenA : (List.insertionSort pairLe
      (scoreVecs (provider query) store.vectors 0)).length =
      store.vectors.length := by
    rw [(List.perm_insertionSort pairLe _).length_eq, scoreVecs_length]
  have hlenTake : ((List.insertionSort pairLe
      (scoreVecs (provider query) store.vectors 0)).take k).length = k := by
    simp only [List.length_take, hlenA]
    omega
  refine ⟨_, hsearch, ?_, ?_, ?_, ?_, ?_⟩
  · rw [hlenf, hlenTake]
  · rw [hranks, hlenTake]
  · rw [hdists, List.map_take]
    congr 1
    have hS1 : List.Sorted (fun a b : Int => a ≤ b)
        ((List.insertionSort pairLe
          (scoreVecs (provider query) store.vectors 0)).map Prod.fst) := by
      have hp : List.Pairwise pairLe (List.insertionSort pairLe
          (scoreVecs (provider query) store.vectors 0)) :=
        List.sorted_insertionSort pairLe _
      exact hp.map Prod.fst (by intro a b hab; unfold pairLe at hab; omega)
    have hP1 : ((List.insertionSort pairLe
        (scoreVecs (provider query) store.vectors 0)).map Prod.fst).Perm
        (store.vectors.map (sqDist (provider query))) := by
      have hper := (List.perm_insertionSort pairLe
        (scoreVecs (provider query) store.vectors 0)).map Prod.fst
      rwa [scoreVecs_map_fst] at hper
    have hS2 : List.Sorted (fun a b : Int => a ≤ b)
        (List.insertionSort (fun a b : Int => a ≤ b)
          (store.vectors.map (sqDist (provider query)))) :=
      List.sorted_insertionSort _ _
    have hP2 : (List.insertionSort (fun a b : Int => a ≤ b)
        (store.vectors.map (sqDist (provider query)))).Perm
        (store.vectors.map (sqDist (provider query))) :=
      List.perm_insertionSort _ _
    exact List.eq_of_perm_of_sorted (hP1.trans hP2.symm) hS1 hS2
  · intro r hr
    have hmem : r.distance ∈ (collectResults store.metadata
        ((List.insertionSort pairLe
          (scoreVecs (provider query) store.vectors 0)).take k) 0).map
        SearchResult.distance := List.mem_map_of_mem SearchResult.distance hr
    rw [hdists] at hmem
    obtain ⟨p, hp, hpe⟩ := List.mem_map.mp hmem
    obtain ⟨i, hi, rfl⟩ := hchar p hp
    rw [← hpe]
    exact sqDist_nonneg _ _
  · refine ⟨((List.insertionSort pairLe
      (scoreVecs (provider query) store.vectors 0)).take k).map
        (fun p => p.2.toNat), ?_, ?_, ?_, ?_, ?_⟩
    · have hscored := scoreVecs_pairwise_snd (provider query) store.vectors 0
      have hnd1 : ((scoreVecs (provider query) store.vectors 0).map
          Prod.snd).Nodup := by
        have hmapped := hscored.map Prod.snd
          (fun a b (hab : a.2 < b.2) => hab)
        exact hmapped.imp (fun hlt => ne_of_lt hlt)
      have hndA : ((List.insertionSort pairLe
          (scoreVecs (provider query) store.vectors 0)).map Prod.snd).Nodup := by
        have hperm := (List.perm_insertionSort pairLe
          (scoreVecs (provider query) store.vectors 0)).map Prod.snd
        exact hperm.symm.nodup hnd1
      have hndTake : (((List.insertionSort pairLe
          (scoreVecs (provider query) store.vectors 0)).take k).map
          Prod.snd).Nodup := by
        rw [List.map_take]
        exact (List.take_sublist _ _).nodup hndA
      have hsplit : ((List.insertionSort pairLe
          (scoreVecs (provider query) store.vectors 0)).take k).map
          (fun p => p.2.toNat) =
          (((List.insertionSort pairLe
            (scoreVecs (provider query) store.vectors 0)).take k).map
            Prod.snd).map Int.toNat := by
        rw [List.map_map]
        rfl
      rw [hsplit]
      apply hndTake.map_on
      intro x hx y hy hxy
      obtain ⟨px, hpx, hex⟩ := List.mem_map.mp hx
      obtain ⟨ix, hix, rfl⟩ := hchar px hpx
      obtain ⟨py, hpy, hey⟩ := List.mem_map.mp hy
      obtain ⟨iy, hiy, rfl⟩ := hchar py hpy
      simp only [] at hex hey
      omega
    · rw [List.length_map, hlenTake]
    · intro j hj
      obtain ⟨p, hp, hpe⟩ := List.mem_map.mp hj
      obtain ⟨i, hi, rfl⟩ := hchar p hp
      simp only [] at hpe
      omega
    · rw [hdists, List.map_map]
      apply List.map_congr_left
      intro p hp
      obtain ⟨i, hi, rfl⟩ := hchar p hp
      simp
    · rw [hmds, List.map_map]
      apply List.map_congr_left
      intro p hp
      obtain ⟨i, hi, rfl⟩ := hchar p hp
      have hi' : i < store.metadata.length := by rw [halign]; exact hi
      show (pyGet store.metadata (i : Int)).getD blankMd =
        store.metadata.getD ((i : Int)).toNat blankMd
      rw [pyGet_ofNat store.metadata i hi']
      simp [List.getD_eq_getElem _ _ (by simpa using hi'), List.get_eq_getElem,
        List.getElem?_eq_getElem hi']

/-- Witness for C8 on the three-vector store with known distances 0, 1, 4. -/
theorem search_ranking_correctness_witness :
    ∃ res, EmbeddingStore.search demoStore3 demoProvider1 "probe" 3 =
        .ok res ∧
      res.length = 3 ∧
      res.map SearchResult.rank = List.range' 1 3 ∧
      res.map SearchResult.distance =
        (List.insertionSort (fun a b : Int => a ≤ b)
          (demoStore3.vectors.map (sqDist (demoProvider1 "probe")))).take 3 ∧
      (∀ r ∈ res, 0 ≤ r.distance) ∧
      (∃ picks : List Nat, picks.Nodup ∧ picks.length = 3 ∧
        (∀ j ∈ picks, j < demoStore3.vectors.length) ∧
        res.map SearchResult.distance =
          picks.map (fun j =>
            sqDist (demoProvider1 "probe") (demoStore3.vectors.getD j [])) ∧
        res.map SearchResult.md =
          picks.map (fun j => demoStore3.metadata.getD j blankMd)) :=
  search_ranking_correctness demoStore3 demoProvider1 "probe" 3
    (by decide) (by decide) (by decide) (by decide)

theorem collectResults_length_all (metadata : List Metadata) :
    ∀ (pairs : List (Int × Int)) (i : Nat),
      (∀ p ∈ pairs, (0 ≤ p.2 ∧ p.2 < (metadata.length : Int)) ∨
        (p.2 = -1 ∧ metadata ≠ [])) →
      (collectResults metadata pairs i).length = pairs.length := by
  intro pairs
  induction pairs with
  | nil => intro i _; rfl
  | cons p rest ih =>
    intro i hv
    have hrest : ∀ w ∈ rest, (0 ≤ w.2 ∧ w.2 < (metadata.length : Int)) ∨
        (w.2 = -1 ∧ metadata ≠ []) :=
      fun w hw => hv w (List.mem_cons_of_mem _ hw)
    obtain ⟨d, idx⟩ := p
    rw [show collectResults metadata ((d, idx) :: rest) i =
        (if idx < (metadata.length : Int) then
          match pyGet metadata idx with
          | some md => ⟨md, d, i + 1⟩ :: collectResults metadata rest (i + 1)
          | none => collectResults metadata rest (i + 1)
        else collectResults metadata rest (i + 1)) from rfl]
    rcases hv (d, idx) (List.mem_cons_self _ _) with ⟨hp1, hp2⟩ | ⟨hneg, hne⟩
    · simp only at hp1 hp2
      have hlt : idx.toNat < metadata.length := by omega
      have hpy : pyGet metadata idx = some (metadata.get ⟨idx.toNat, hlt⟩) := by
        have hbase := pyGet_ofNat metadata idx.toNat hlt
        rwa [Int.toNat_of_nonneg hp1] at hbase
      rw [if_pos hp2, hpy, List.length_cons, ih (i + 1) hrest]
      rfl
    · simp only at hneg
      subst hneg
      have hmlen : 0 < metadata.length := List.length_pos.mpr hne
      obtain ⟨a, hpy⟩ := pyGet_neg_one metadata hne
      have hcast : (0 : Int) < (metadata.length : Int) := by
        exact_mod_cast hmlen
      rw [if_pos (by omega : (-1 : Int) < (metadata.length : Int)), hpy,
        List.length_cons, ih (i + 1) hrest]
      rfl

theorem search_length (store : EmbeddingStore)
    (provider : String → List Int) (query : String) (k : Nat)
    (hn : store.vectors ≠ [])
    (halign : store.metadata.length = store.vectors.length)
    (hq : (provider query).length = store.dimension) :
    ∃ res, store.search provider query k = .ok res ∧ res.length = k := by
  have hsearch := search_spec store provider query k hn hq
  have hmne : store.metadata ≠ [] := by
    intro h0
    rw [h0] at halign
    exact hn (List.eq_nil_of_length_eq_zero halign.symm)
  have hv : ∀ p ∈ faissFlatL2Search store.vectors (provider query) k,
      (0 ≤ p.2 ∧ p.2 < (store.metadata.length : Int)) ∨
        (p.2 = -1 ∧ store.metadata ≠ []) := by
    intro p hp
    rcases faissFlatL2Search_mem store.vectors (provider query) k p hp with
      ⟨i, hi, rfl⟩ | rfl
    · left
      refine ⟨by simp, ?_⟩
      show (i : Int) < (store.metadata.length : Int)
      rw [halign]
      exact_mod_cast hi
    · right
      exact ⟨rfl, hmne⟩
  refine ⟨_, hsearch, ?_⟩
  rw [collectResults_length_all store.metadata _ 0 hv,
    faissFlatL2Search_length]

/-- C3 (amended): an empty or whitespace-only query is not rejected — no
`InvalidQuery` check exists.  The engine embeds the query via the provider,
performs retrieval like any other query, and returns a normal `ok`
Perspective whose sources are the `top_k` retrieved results (whether the
LLM call succeeds or fails). -/
theorem whitespace_query_not_rejected (g : PerspectiveGenerator)
    (provider : String → List Int)
    (llm : String → String → Except String String) (query : String)
    (top_k : Nat) (max_context_length : Int) (persona_prompt : Option String)
    (_hws : ∀ c ∈ query.data, c.isWhitespace)
    (hn : g.store.vectors ≠ [])
    (halign : g.store.metadata.length = g.store.vectors.length)
    (hq : (provider query).length = g.store.dimension)
    (hk : 1 ≤ top_k) :
    ∃ p, g.search_and_generate_perspective provider llm query top_k
        max_context_length persona_prompt = .ok p ∧
      p.sources.length = top_k := by
  obtain ⟨res, hres, hlen⟩ :=
    search_length g.store provider query top_k hn halign hq
  have hne : res ≠ [] := by
    intro h0
    rw [h0] at hlen
    simp at hlen
    omega
  unfold PerspectiveGenerator.search_and_generate_perspective
  rw [hres]
  simp only [List.isEmpty_eq_true, hne, if_false]
  cases hE : llm (mkSystemMessage persona_prompt)
      (buildPrompt (buildContext res max_context_length) query) with
  | ok content =>
      exact ⟨_, rfl, by simp [hlen]⟩
  | error e =>
      exact ⟨_, rfl, by simp [hlen]⟩

/-- Witness for C3 (amended) at the empty query on a one-vector store. -/
theorem whitespace_query_not_rejected_witness :
    ∃ p, PerspectiveGenerator.search_and_generate_perspective demoGen1
        demoProvider2 llmOk "" 1 2000 none = .ok p ∧
      p.sources.length = 1 :=
  whitespace_query_not_rejected demoGen1 demoProvider2 llmOk "" 1 2000 none
    (by decide) (by decide) (by decide) (by decide) (by decide)
